import Mathlib

/-!
Verification of the Wealth-Management-Agents repository against its
natural-language specification.

The development shallowly embeds the memory subsystems and the orchestrator:

* `src/episodic_memory/episodic_memory.py` — the recency-decay retrieval
  pipeline (`retrieve_memories`) and `add_event`;
* `src/ai_utils.py` — `get_embedding` with its fallback behaviour;
* `src/semantic_memory/memory.py` — `create_semantic_memory`,
  `get_semantic_memory`, `update_semantic_memory` with the archive;
* `src/procedural_memory/procedural_memory.py` — `record_procedure_execution`
  and the `recommend_procedure` re-weighting;
* `src/memory_hub.py` — the `EpisodicMemoryWrapper` facade, including the
  Python argument binding of its `add_event` compatibility method;
* `src/orchestrator.py` together with `src/agents.py` — the six-phase
  `comprehensive_analysis` run.

External collaborators (the language-model gateway, the embedding service and
the document store's vector-search stage) are modelled as parameters, exactly
as the specification designates them opaque.  Scores and timestamps of the
ranking pipeline live in `ℝ` because the decay factor is a real exponential;
everything else uses `ℚ`, `Nat` and `String` so that concrete runs evaluate.
-/

namespace WealthAgents

/-! ## Episodic retrieval pipeline

`EpisodicMemory.retrieve_memories` (episodic_memory.py lines 56-66) runs an
aggregation pipeline: a `$vectorSearch` stage produces candidate documents for
the client together with a raw similarity score, then two `$addFields` stages
compute `days_old` and `adjusted_score`, and a final single-key
`$sort {adjusted_score: -1}` orders the result.  The search stage belongs to
the opaque document store, so the embedding takes its output — documents with
an attached raw score — as input.  Timestamps are milliseconds since epoch,
as BSON dates subtract to milliseconds. -/

/-- One candidate produced by the `$vectorSearch` stage: the stored document
fields the later stages read, plus the raw similarity score the search stage
attaches. -/
structure SearchHit where
  memory_id : String
  client_id : String
  timestamp : ℝ
  score : ℝ

/-- A candidate after the two `$addFields` stages of the pipeline. -/
structure RankedHit where
  memory_id : String
  client_id : String
  timestamp : ℝ
  score : ℝ
  days_old : ℝ
  adjusted_score : ℝ

/-- First `$addFields` stage: `days_old = (NOW - timestamp) / 86400000`. -/
noncomputable def daysOld (now ts : ℝ) : ℝ := (now - ts) / 86400000

/-- Second `$addFields` stage:
`adjusted_score = score * exp(-1 * (days_old / 30))`. -/
noncomputable def adjustedScore (score days : ℝ) : ℝ :=
  score * Real.exp (-1 * (days / 30))

/-- Both `$addFields` stages applied to one candidate. -/
noncomputable def addRecencyFields (now : ℝ) (h : SearchHit) : RankedHit :=
  { memory_id := h.memory_id
    client_id := h.client_id
    timestamp := h.timestamp
    score := h.score
    days_old := daysOld now h.timestamp
    adjusted_score := adjustedScore h.score (daysOld now h.timestamp) }

/-- The comparison the final `$sort {adjusted_score: -1}` stage orders by:
descending `adjusted_score`, and nothing else. -/
def byAdjustedDesc (a b : RankedHit) : Prop := b.adjusted_score ≤ a.adjusted_score

/-- Meaning of `retrieve_memories` after the search stage: `out` is a valid
result for candidate list `hits` at time `now` iff it is a permutation of the
enriched candidates that is ordered by descending `adjusted_score`.  The
store's single-key sort specifies no order between documents with equal keys,
so every such permutation is a possible output. -/
def retrieveMemoriesSpec (now : ℝ) (hits : List SearchHit) (out : List RankedHit) : Prop :=
  out.Perm (hits.map (addRecencyFields now)) ∧ out.Pairwise byAdjustedDesc

/-- Concrete single-candidate store used to witness claim C1: one hit whose
timestamp lies exactly 30 days (2592000000 ms) before the query time. -/
def c1Hit : SearchHit :=
  { memory_id := "ep_000000000001", client_id := "client_101", timestamp := 0, score := 1 }

/-- Two events with identical zero raw similarity scores but different
timestamps, used against claims C9 and C5: the older one. -/
def tieHitOld : SearchHit :=
  { memory_id := "ep_old", client_id := "client_101", timestamp := 0, score := 0 }

/-- The newer of the two zero-score events. -/
def tieHitNew : SearchHit :=
  { memory_id := "ep_new", client_id := "client_101", timestamp := 86400000, score := 0 }

/-- Older of two concrete positive-score events used to witness the amended
claim C9. -/
def c9PosOld : SearchHit :=
  { memory_id := "ep_pos_old", client_id := "client_101", timestamp := 0, score := 1 }

/-- Newer of two concrete positive-score events used to witness the amended
claim C9. -/
def c9PosNew : SearchHit :=
  { memory_id := "ep_pos_new", client_id := "client_101", timestamp := 2592000000, score := 1 }

/-- Concrete candidate with raw score 2 at the query instant, for the C5
witness. -/
def c5HitA : SearchHit :=
  { memory_id := "ep_c5_a", client_id := "client_101", timestamp := 0, score := 2 }

/-- Concrete candidate with raw score 1 at the query instant, for the C5
witness. -/
def c5HitB : SearchHit :=
  { memory_id := "ep_c5_b", client_id := "client_101", timestamp := 0, score := 1 }

/-- Valid output for the C5 witness store: both candidates are age zero, so
their adjusted scores are their raw scores 2 and 1, listed in descending
order. -/
noncomputable def c5OutW : List RankedHit :=
  [addRecencyFields 0 c5HitA, addRecencyFields 0 c5HitB]

/-! ## Episodic write path

`get_embedding` (ai_utils.py lines 42-65) posts the text to the embedding
service through `robust_post`; when the API key is missing, or the post
ultimately raises `ConnectionError`/`ValueError`, it falls back to a list of
1024 fresh draws from the process RNG (`random.random()`), never re-raising.
`EpisodicMemory.add_event` (episodic_memory.py lines 20-54) summarizes the
transcript, extracts tags when the caller supplied none, embeds the summary,
and appends exactly one document to the collection.  The summarizer and tag
extractor (`summarize_text` / `extract_tags`) are NOT wrapped in a handler, so
their failures propagate; the insert may also raise if the store is down.
Vector components are modelled in `ℚ`; the RNG is a stream of draws. -/

/-- Fallback embedding of ai_utils.get_embedding: 1024 fresh RNG draws
(`[random.random() for _ in range(1024)]`). -/
def fallbackEmbedding (rng : Nat → ℚ) : List ℚ := (List.range 1024).map rng

/-- The external gateways an episodic `add_event` call touches, plus the
process RNG and the API-key environment. -/
structure EpisodicGateways where
  summarize : String → Except Unit String
  extractTags : String → Except Unit (List String)
  apiKey : Option String
  post : String → Except Unit (List ℚ)
  rng : Nat → ℚ

/-- get_embedding from ai_utils.py: missing key or a failing post both
degrade to the RNG fallback; a successful post returns the service's
vector. -/
def get_embedding (apiKey : Option String) (post : String → Except Unit (List ℚ))
    (rng : Nat → ℚ) (text : String) : List ℚ :=
  match apiKey with
  | none => fallbackEmbedding rng
  | some _ =>
    match post text with
    | Except.ok v => v
    | Except.error _ => fallbackEmbedding rng

/-- One document of the `episodic_memories` collection, with the fields
`EpisodicMemory.add_event` writes.  Timestamps are abstract ticks. -/
structure EpisodicEventDoc where
  memory_id : String
  client_id : String
  agent_source : String
  timestamp : Nat
  event_type : String
  event_summary : String
  full_transcript : String
  participants : List String
  related_assets : List String
  embedding : List ℚ
  tags : List String
  importance_score : ℚ
  emotional_valence : String
  created_at : Nat
  last_accessed : Nat
  access_count : Nat
  deriving DecidableEq

/-- EpisodicMemory.add_event: summarize (may raise), extract tags when none
were supplied (may raise), embed the summary (total, with fallback), build the
document and insert it (`insertOk = false` models a store insert that
raises).  `memId` stands for the generated `ep_`-prefixed id and `nowTs` for
`datetime.utcnow()`.  Returns the store followed by the inserted document. -/
def add_event (gw : EpisodicGateways) (insertOk : Bool) (store : List EpisodicEventDoc)
    (memId : String) (nowTs : Nat) (client_id transcript agent_source : String)
    (related_assets : List String) (event_type : String) (tags : Option (List String))
    (timestamp : Option Nat) : Except Unit (List EpisodicEventDoc × EpisodicEventDoc) := do
  let summary ← gw.summarize transcript
  let tagList ← match tags with
    | some t => pure t
    | none => gw.extractTags transcript
  let embedding := get_embedding gw.apiKey gw.post gw.rng summary
  let eventTimestamp := timestamp.getD nowTs
  let doc : EpisodicEventDoc :=
    { memory_id := memId
      client_id := client_id
      agent_source := agent_source
      timestamp := eventTimestamp
      event_type := event_type
      event_summary := summary
      full_transcript := transcript
      participants := [agent_source, "client"]
      related_assets := related_assets
      embedding := embedding
      tags := tagList
      importance_score := 1/2
      emotional_valence := "neutral"
      created_at := nowTs
      last_accessed := nowTs
      access_count := 0 }
  if insertOk then pure (store ++ [doc], doc) else Except.error ()

/-- Gateways for the C6 witness: the embedding post always raises while the
summarizer and tag extractor answer normally. -/
def gwDownW : EpisodicGateways :=
  { summarize := fun t => Except.ok ("sum:" ++ t)
    extractTags := fun _ => Except.ok ["onboarding"]
    apiKey := some "key"
    post := fun _ => Except.error ()
    rng := fun _ => 1/3 }

/-- RNG stream that always draws `1/2`, exhibiting a nonzero fallback. -/
def rngHalf : Nat → ℚ := fun _ => 1/2

/-- Gateways for the C6 counterexample: failing embedding post, RNG drawing
`1/2`. -/
def gwRandFail : EpisodicGateways :=
  { summarize := fun _ => Except.ok "summary"
    extractTags := fun _ => Except.ok []
    apiKey := some "key"
    post := fun _ => Except.error ()
    rng := rngHalf }

/-- The document the counterexample run persists. -/
def c6Doc : EpisodicEventDoc :=
  { memory_id := "ep_x"
    client_id := "client_101"
    agent_source := "advisor"
    timestamp := 5
    event_type := "client_meeting"
    event_summary := "summary"
    full_transcript := "hello"
    participants := ["advisor", "client"]
    related_assets := []
    embedding := fallbackEmbedding rngHalf
    tags := []
    importance_score := 1/2
    emotional_valence := "neutral"
    created_at := 5
    last_accessed := 5
    access_count := 0 }

/-! ## Memory Hub episodic wrapper

`EpisodicMemoryWrapper` (memory_hub.py lines 93-208).  `add` wraps the whole
underlying `EpisodicMemory.add_event` call in `try/except Exception`, printing
a warning and returning the empty-string id on any raise; on success it
returns the string of the inserted `_id` (modelled by the `oid` argument).  It
does not forward `agent_source`, so the stored document carries the default
source.  `add_event` is the compatibility entry the orchestrator and agents
call: `content` is a REQUIRED positional parameter; the transcript may instead
arrive through `**kwargs` under the key `transcript`, in which case it wins
over `content`; a truthy `agent_source` is prepended as
`"[" + agent_source + "] "`.  Calling `add_event` without binding `content`
raises `TypeError` at the call site, before the body and its handler run —
`callWrapperAddEvent` models the Python argument binding explicitly. -/

/-- Transcript formatting of `EpisodicMemoryWrapper.add_event`:
`f"[agent_source] transcript" if agent_source else transcript`, where both
`None` and the empty string are falsy. -/
def formatTranscript (agent_source : Option String) (transcript : String) : String :=
  match agent_source with
  | some s => if s == "" then transcript else "[" ++ s ++ "] " ++ transcript
  | none => transcript

/-- EpisodicMemoryWrapper.add: delegate to `add_event` on a fresh store
manager; any raise is swallowed into the empty-string id with the durable
store as the underlying operation left it (an insert that raises leaves it
untouched).  `timestamp or datetime.utcnow()` always hands the manager an
explicit timestamp. -/
def wrapperAdd (gw : EpisodicGateways) (insertOk : Bool) (store : List EpisodicEventDoc)
    (memId oid : String) (nowTs : Nat) (client_id event_type transcript : String)
    (timestamp : Option Nat) : List EpisodicEventDoc × String :=
  match add_event gw insertOk store memId nowTs client_id transcript "portfolio_manager" []
      event_type none (some (timestamp.getD nowTs)) with
  | Except.ok (store', _) => (store', oid)
  | Except.error _ => (store, "")

/-- The arguments of one Python-level call to
`EpisodicMemoryWrapper.add_event`: `content` is `none` when the caller did not
bind the required positional parameter, and `kwargs` collects stray keyword
arguments such as `transcript`. -/
structure AddEventCall where
  client_id : String
  content : Option String
  agent_source : Option String
  event_type : String
  timestamp : Option Nat
  kwargs : List (String × String)

/-- The message of the `TypeError` Python raises when `add_event` is called
without its required positional argument. -/
def typeErrorMsg : String :=
  "TypeError: add_event missing 1 required positional argument: content"

/-- One call to `EpisodicMemoryWrapper.add_event` including Python argument
binding: with `content` unbound the call raises `TypeError` before the body
runs; otherwise the body never raises — it reads the transcript from `kwargs`
if present (else from `content`), formats it, and delegates to `add`. -/
def callWrapperAddEvent (gw : EpisodicGateways) (insertOk : Bool)
    (store : List EpisodicEventDoc) (memId oid : String) (nowTs : Nat)
    (c : AddEventCall) : Except String (List EpisodicEventDoc × String) :=
  match c.content with
  | none => Except.error typeErrorMsg
  | some content =>
    let transcript := (c.kwargs.lookup "transcript").getD content
    Except.ok (wrapperAdd gw insertOk store memId oid nowTs c.client_id c.event_type
      (formatTranscript c.agent_source transcript) c.timestamp)

/-- The document a successful `add_event` call with caller-omitted tags
builds, spelled out for equational reasoning. -/
def builtDoc (gw : EpisodicGateways) (memId : String) (nowTs : Nat)
    (client_id transcript agent_source : String) (related_assets : List String)
    (event_type summary : String) (tagList : List String) (timestamp : Option Nat) :
    EpisodicEventDoc :=
  { memory_id := memId
    client_id := client_id
    agent_source := agent_source
    timestamp := timestamp.getD nowTs
    event_type := event_type
    event_summary := summary
    full_transcript := transcript
    participants := [agent_source, "client"]
    related_assets := related_assets
    embedding := get_embedding gw.apiKey gw.post gw.rng summary
    tags := tagList
    importance_score := 1/2
    emotional_valence := "neutral"
    created_at := nowTs
    last_accessed := nowTs
    access_count := 0 }

/-- Gateways for the C10 witness: both text gateways answer, the embedding
path is irrelevant. -/
def gwHubW : EpisodicGateways :=
  { summarize := fun _ => Except.ok "s"
    extractTags := fun _ => Except.ok []
    apiKey := none
    post := fun _ => Except.error ()
    rng := fun _ => 0 }

/-! ## Orchestrator

`FinancialAdvisoryOrchestrator.comprehensive_analysis` (orchestrator.py lines
80-169) runs the six agents of agents.py in a fixed order.  Each agent method
runs its model task (`BaseFinancialAgent.execute_task` catches every failure
and returns an in-band error string, so it is total — modelled by the opaque
`llm`), stores its analysis in a per-agent collection, and then logs an
episodic event through `memory_hub.episodic.add_event` — passing the text as
the keyword argument `transcript` while the wrapper's required positional
parameter `content` stays unbound.  After each agent returns, the orchestrator
logs a second episodic event, binding `content` positionally.  Prompt
templating is elided: task strings are abstract.  A `None` user id is
rendered as the string "null"; the run never reaches a point where this
matters, because the very first agent-side log raises. -/

/-- Minimal client payload: `profile`, `portfolio`, `goals`, `tax_info`; the
orchestrator and the agents read the two `user_id` entries, everything else
only feeds prompt text. -/
structure ClientData where
  profile_user_id : Option String
  portfolio_user_id : Option String
  profile_text : String
  portfolio_text : String
  goals_text : String
  tax_text : String

/-- Durable state of one run: the episodic collection plus the per-agent
analysis collections, the latter as an insert log of (collection, payload). -/
structure OrchestratorState where
  episodic : List EpisodicEventDoc
  collections : List (String × String)

/-- BaseFinancialAgent.execute_task: retries, empty-response re-prompting and
its outer handler make it total — every failure path returns an in-band error
string, so it is the opaque text-for-task function `llm`. -/
def executeTask (llm : String → String) (task : String) : String := llm task

/-- An agent-side episodic log (agents.py): the call passes `transcript=` as a
keyword while `content` stays unbound. -/
def agentSideLog (gw : EpisodicGateways) (insertOk : Bool) (idgen : Nat → String)
    (nowTs : Nat) (st : OrchestratorState) (client_id agentName event_type result : String) :
    Except String OrchestratorState := do
  let (ep', _) ← callWrapperAddEvent gw insertOk st.episodic (idgen st.episodic.length)
    (idgen st.episodic.length) nowTs
    { client_id := client_id, content := none, agent_source := some agentName,
      event_type := event_type, timestamp := none,
      kwargs := [("transcript", result)] }
  pure { st with episodic := ep' }

/-- An orchestrator-side episodic log (orchestrator.py): the text is bound to
the positional `content` parameter. -/
def orchestratorLog (gw : EpisodicGateways) (insertOk : Bool) (idgen : Nat → String)
    (nowTs : Nat) (st : OrchestratorState) (client_id agentSource event_type result : String) :
    Except String OrchestratorState := do
  let (ep', _) ← callWrapperAddEvent gw insertOk st.episodic (idgen st.episodic.length)
    (idgen st.episodic.length) nowTs
    { client_id := client_id, content := some result, agent_source := some agentSource,
      event_type := event_type, timestamp := none, kwargs := [] }
  pure { st with episodic := ep' }

/-- MarketResearchAgent.analyze_market_trends: model task, insert into the
market_research collection, agent-side episodic log under client "general". -/
def analyze_market_trends (llm : String → String) (gw : EpisodicGateways) (insertOk : Bool)
    (idgen : Nat → String) (nowTs : Nat) (st : OrchestratorState) :
    Except String (String × OrchestratorState) := do
  let result := executeTask llm "market trends analysis"
  let st := { st with collections := st.collections ++ [("market_research", result)] }
  let st ← agentSideLog gw insertOk idgen nowTs st "general" "Market Research Analyst"
    "market_research" result
  pure (result, st)

/-- RiskAssessmentAgent.conduct_risk_assessment: model task, insert into
risk_assessments, agent-side episodic log under the profile's user id. -/
def conduct_risk_assessment (llm : String → String) (gw : EpisodicGateways) (insertOk : Bool)
    (idgen : Nat → String) (nowTs : Nat) (st : OrchestratorState)
    (portfolio_text : String) (profile_uid : Option String) (profile_text : String) :
    Except String (String × OrchestratorState) := do
  let result := executeTask llm ("risk assessment: " ++ portfolio_text ++ " " ++ profile_text)
  let st := { st with collections := st.collections ++ [("risk_assessments", result)] }
  let st ← agentSideLog gw insertOk idgen nowTs st (profile_uid.getD "null")
    "Risk Assessment Specialist" "risk_assessment" result
  pure (result, st)

/-- PortfolioManagerAgent.analyze_portfolio: model task, upsert into
portfolio_data, agent-side episodic log under the portfolio's user id. -/
def analyze_portfolio (llm : String → String) (gw : EpisodicGateways) (insertOk : Bool)
    (idgen : Nat → String) (nowTs : Nat) (st : OrchestratorState)
    (portfolio_uid : Option String) (portfolio_text context_text : String) :
    Except String (String × OrchestratorState) := do
  let result := executeTask llm ("portfolio analysis: " ++ portfolio_text ++ " " ++ context_text)
  let st := { st with collections := st.collections ++ [("portfolio_data", result)] }
  let st ← agentSideLog gw insertOk idgen nowTs st (portfolio_uid.getD "null")
    "Portfolio Manager" "portfolio_analysis" result
  pure (result, st)

/-- FinancialPlanningAgent.create_financial_plan: model task, insert into
financial_plans, agent-side episodic log under the profile's user id. -/
def create_financial_plan (llm : String → String) (gw : EpisodicGateways) (insertOk : Bool)
    (idgen : Nat → String) (nowTs : Nat) (st : OrchestratorState)
    (profile_uid : Option String) (profile_text goals_text context_text : String) :
    Except String (String × OrchestratorState) := do
  let result := executeTask llm
    ("financial plan: " ++ profile_text ++ " " ++ goals_text ++ " " ++ context_text)
  let st := { st with collections := st.collections ++ [("financial_plans", result)] }
  let st ← agentSideLog gw insertOk idgen nowTs st (profile_uid.getD "null")
    "Financial Planning Specialist" "financial_plan" result
  pure (result, st)

/-- TaxOptimizationAgent.identify_tax_opportunities: model task, insert into
tax_records, agent-side episodic log under the portfolio's user id. -/
def identify_tax_opportunities (llm : String → String) (gw : EpisodicGateways) (insertOk : Bool)
    (idgen : Nat → String) (nowTs : Nat) (st : OrchestratorState)
    (portfolio_uid : Option String) (portfolio_text tax_text : String) :
    Except String (String × OrchestratorState) := do
  let result := executeTask llm ("tax opportunities: " ++ portfolio_text ++ " " ++ tax_text)
  let st := { st with collections := st.collections ++ [("tax_records", result)] }
  let st ← agentSideLog gw insertOk idgen nowTs st (portfolio_uid.getD "null")
    "Tax Optimization Specialist" "tax_optimization" result
  pure (result, st)

/-- ComplianceAgent.review_recommendation: model task, insert into
compliance_logs, agent-side episodic log under the recommendation's client
id. -/
def review_recommendation (llm : String → String) (gw : EpisodicGateways) (insertOk : Bool)
    (idgen : Nat → String) (nowTs : Nat) (st : OrchestratorState)
    (client_id recommendation_text : String) :
    Except String (String × OrchestratorState) := do
  let result := executeTask llm ("compliance review: " ++ recommendation_text)
  let st := { st with collections := st.collections ++ [("compliance_logs", result)] }
  let st ← agentSideLog gw insertOk idgen nowTs st client_id "Compliance Officer"
    "compliance_review" result
  pure (result, st)

/-- FinancialAdvisoryOrchestrator.comprehensive_analysis: the six phases in
program order, each agent call followed by the orchestrator's own episodic
log; on success the six-key results mapping would be returned together with
the final durable state. -/
def comprehensive_analysis (llm : String → String) (gw : EpisodicGateways) (insertOk : Bool)
    (idgen : Nat → String) (nowTs : Nat) (cd : ClientData) (st0 : OrchestratorState) :
    Except String (List (String × String) × OrchestratorState) := do
  let client_id := cd.profile_user_id.getD "null"
  let (market, st1) ← analyze_market_trends llm gw insertOk idgen nowTs st0
  let st1 ← orchestratorLog gw insertOk idgen nowTs st1 client_id "market_researcher"
    "market_analysis" market
  let (risk, st2) ← conduct_risk_assessment llm gw insertOk idgen nowTs st1
    cd.portfolio_text cd.profile_user_id cd.profile_text
  let st2 ← orchestratorLog gw insertOk idgen nowTs st2 client_id "risk_assessor"
    "risk_assessment" risk
  let (portfolio, st3) ← analyze_portfolio llm gw insertOk idgen nowTs st2
    cd.portfolio_user_id cd.portfolio_text (market ++ " " ++ risk)
  let st3 ← orchestratorLog gw insertOk idgen nowTs st3 client_id "portfolio_manager"
    "portfolio_analysis" portfolio
  let (plan, st4) ← create_financial_plan llm gw insertOk idgen nowTs st3
    cd.profile_user_id cd.profile_text cd.goals_text (risk ++ " " ++ portfolio)
  let st4 ← orchestratorLog gw insertOk idgen nowTs st4 client_id "financial_planner"
    "financial_planning" plan
  let (tax, st5) ← identify_tax_opportunities llm gw insertOk idgen nowTs st4
    cd.portfolio_user_id cd.portfolio_text cd.tax_text
  let st5 ← orchestratorLog gw insertOk idgen nowTs st5 client_id "tax_optimizer"
    "tax_optimization" tax
  let (compliance, st6) ← review_recommendation llm gw insertOk idgen nowTs st5 client_id
    (market ++ " " ++ risk ++ " " ++ portfolio ++ " " ++ plan ++ " " ++ tax)
  let st6 ← orchestratorLog gw insertOk idgen nowTs st6 client_id "compliance_officer"
    "compliance_review" compliance
  pure ([("market_research", market), ("risk_assessment", risk),
    ("portfolio_analysis", portfolio), ("financial_plan", plan),
    ("tax_optimization", tax), ("compliance_review", compliance)], st6)

/-! ## Semantic store

semantic_memory/memory.py.  `create_semantic_memory` asks the chat model for a
structured JSON summary of the data, embeds the summary, and inserts one new
document with `version 1` and `is_active: True`; any failure of those steps is
printed and re-raised, with nothing inserted.  `get_semantic_memory` is a
`find_one` on `(client_id, memory_type, is_active: True)`.
`update_semantic_memory` falls back to create when no active record exists;
otherwise it first inserts a copy of the current record (stamped
`archived_at`) into `semantic_memories_archive`, then sets the current
record's `is_active` to `False`, and only then calls create on the new data —
so a create failure strikes after the archive and the deactivation are already
durable.  Operations return the store after the call paired with the outcome:
the store survives a raise, as the database does in the source.  The JSON
payload and summary are opaque strings, document ids are `Nat`. -/

/-- One document of the `semantic_memories` collection. -/
structure SemanticDoc where
  oid : Nat
  client_id : String
  memory_type : String
  data : String
  summary_text : String
  embedding : List ℚ
  version : Nat
  is_active : Bool
  created_at : Nat
  updated_at : Nat
  deriving DecidableEq

/-- The semantic store: main collection, archive collection (documents with
their `archived_at` stamp), and the next document id. -/
structure SemanticStore where
  docs : List SemanticDoc
  archive : List (SemanticDoc × Nat)
  nextOid : Nat
  deriving DecidableEq

/-- Steps 1-2 of create_semantic_memory: chat-model summary then embedding,
each of which may raise. -/
def summarizeAndEmbed (sumw : String → Except Unit String)
    (embw : String → Except Unit (List ℚ)) (data : String) :
    Except Unit (String × List ℚ) := do
  let s ← sumw data
  let e ← embw s
  pure (s, e)

/-- The `find_one`/`find` filter `client_id, memory_type, is_active: True`. -/
def activeFilter (client_id memory_type : String) (d : SemanticDoc) : Bool :=
  d.client_id == client_id && d.memory_type == memory_type && d.is_active

/-- The document a successful create inserts. -/
def createdDoc (now : Nat) (st : SemanticStore) (client_id memory_type data : String)
    (s : String) (e : List ℚ) : SemanticDoc :=
  { oid := st.nextOid
    client_id := client_id
    memory_type := memory_type
    data := data
    summary_text := s
    embedding := e
    version := 1
    is_active := true
    created_at := now
    updated_at := now }

/-- create_semantic_memory: summarize, embed, insert; a raise leaves the store
untouched and propagates. -/
def create_semantic_memory (sumw : String → Except Unit String)
    (embw : String → Except Unit (List ℚ)) (now : Nat) (st : SemanticStore)
    (client_id memory_type data : String) : SemanticStore × Except Unit Unit :=
  match summarizeAndEmbed sumw embw data with
  | Except.error e => (st, Except.error e)
  | Except.ok (s, e) =>
    ({ docs := st.docs ++ [createdDoc now st client_id memory_type data s e]
       archive := st.archive
       nextOid := st.nextOid + 1 }, Except.ok ())

/-- get_semantic_memory: `find_one` on the active filter, in natural order. -/
def get_semantic_memory (st : SemanticStore) (client_id memory_type : String) :
    Option SemanticDoc :=
  st.docs.find? (activeFilter client_id memory_type)

/-- The `update_one .. $set is_active: False` step, keyed by document id. -/
def deactivateOid (o : Nat) (d : SemanticDoc) : SemanticDoc :=
  if d.oid == o then { d with is_active := false } else d

/-- update_semantic_memory: create when nothing is active; otherwise archive
the current record, deactivate it, then create from the new data. -/
def update_semantic_memory (sumw : String → Except Unit String)
    (embw : String → Except Unit (List ℚ)) (now : Nat) (st : SemanticStore)
    (client_id memory_type new_data : String) : SemanticStore × Except Unit Unit :=
  match get_semantic_memory st client_id memory_type with
  | none => create_semantic_memory sumw embw now st client_id memory_type new_data
  | some cur =>
    let st1 : SemanticStore := { st with archive := st.archive ++ [(cur, now)] }
    let st2 : SemanticStore := { st1 with docs := st1.docs.map (deactivateOid cur.oid) }
    create_semantic_memory sumw embw now st2 client_id memory_type new_data

/-- The active records of a `(client_id, memory_type)` pair. -/
def activeDocs (st : SemanticStore) (client_id memory_type : String) : List SemanticDoc :=
  st.docs.filter (activeFilter client_id memory_type)

/-- The archive entries of a `(client_id, memory_type)` pair. -/
def archivedFor (st : SemanticStore) (client_id memory_type : String) :
    List (SemanticDoc × Nat) :=
  st.archive.filter
    (fun p => p.1.client_id == client_id && p.1.memory_type == memory_type)

/-- Summarizer that echoes the data, for the concrete semantic runs. -/
def sumOk : String → Except Unit String := fun d => Except.ok d

/-- Embedder that answers the empty vector, for the concrete semantic runs. -/
def embOk : String → Except Unit (List ℚ) := fun _ => Except.ok []

/-- Summarizer that always raises. -/
def sumFail : String → Except Unit String := fun _ => Except.error ()

/-- The empty semantic store. -/
def emptySemStore : SemanticStore := { docs := [], archive := [], nextOid := 0 }

/-- One concrete active semantic record, superseded by the failing update of
the C4 counterexample. -/
def c4Doc : SemanticDoc :=
  { oid := 0
    client_id := "client_101"
    memory_type := "profile"
    data := "d0"
    summary_text := "d0"
    embedding := []
    version := 1
    is_active := true
    created_at := 0
    updated_at := 0 }

/-- Store holding exactly the one active record `c4Doc`. -/
def c4Store : SemanticStore := { docs := [c4Doc], archive := [], nextOid := 1 }

/-! ## Procedural store

procedural_memory/procedural_memory.py.  `record_procedure_execution` appends
one execution record to `success_history`, recomputes
`success_rate = successes / total` over the appended history, recomputes
`confidence_score = min(0.95, 0.5 + success_rate * 0.45)`, and bumps
`execution_count`.  `recommend_procedure` vector-searches procedures, then a
`$addFields` stage computes
`weighted_score = score * confidence_score * cond(success_rate > 0,
success_rate, 0.5)` — a `$cond`, not a max: a positive success rate is used
verbatim however small, and only a zero or missing `success_rate` (documents
fresh from `learn_procedure_from_episodes` have no such field) falls back to
the neutral 0.5 — and a final single-key `$sort {weighted_score: -1}` orders
the result.  Rates and scores are in `ℚ`. -/

/-- One entry of a procedure's `success_history`. -/
structure ExecutionRecord where
  execution_date : Nat
  outcome : String
  metrics : String
  deriving DecidableEq

/-- One document of the `procedural_memories` collection (the fields the
embedded operations read and write; `success_rate` is absent until the first
execution is recorded). -/
structure ProcedureDoc where
  client_id : String
  procedure_type : String
  embedding : List ℚ
  success_history : List ExecutionRecord
  execution_count : Nat
  confidence_score : ℚ
  success_rate : Option ℚ
  deriving DecidableEq

/-- Number of history entries with outcome "success". -/
def successCount (h : List ExecutionRecord) : Nat :=
  (h.filter (fun r => r.outcome == "success")).length

/-- record_procedure_execution, as the transformation of the procedure's
document (the store lookup and `$push`/`$set` write-back collapse to it). -/
def record_procedure_execution (proc : ProcedureDoc) (r : ExecutionRecord) : ProcedureDoc :=
  let history := proc.success_history ++ [r]
  let rate : ℚ := (successCount history : ℚ) / (history.length : ℚ)
  { proc with
    success_history := history
    success_rate := some rate
    execution_count := proc.execution_count + 1
    confidence_score := min (19/20) (1/2 + rate * (9/20)) }

/-- The document `learn_procedure_from_episodes` persists: empty history, no
`success_rate` field, `execution_count 0`, `confidence_score 0.5`. -/
def learnedProcedure (client_id procedure_type : String) (embedding : List ℚ) :
    ProcedureDoc :=
  { client_id := client_id
    procedure_type := procedure_type
    embedding := embedding
    success_history := []
    execution_count := 0
    confidence_score := 1/2
    success_rate := none }

/-- A candidate of recommend_procedure's `$vectorSearch` stage: the document
fields the `$addFields` stage reads plus the attached raw similarity score. -/
structure ProcSearchHit where
  procedure_type : String
  score : ℚ
  confidence_score : ℚ
  success_rate : Option ℚ
  deriving DecidableEq

/-- A candidate after the `$addFields` stage of recommend_procedure. -/
structure WeightedHit where
  procedure_type : String
  score : ℚ
  confidence_score : ℚ
  success_rate : Option ℚ
  weighted_score : ℚ
  deriving DecidableEq

/-- The `$cond [{$gt: [success_rate, 0]}, success_rate, 0.5]` factor; a
missing field compares below every number in BSON order, so `$gt` is false
and the branch yields 0.5. -/
def condFactor (sr : Option ℚ) : ℚ :=
  match sr with
  | some v => if 0 < v then v else 1/2
  | none => 1/2

/-- The `$addFields` stage of recommend_procedure:
`weighted_score = score * confidence_score * condFactor success_rate`. -/
def addWeightedFields (h : ProcSearchHit) : WeightedHit :=
  { procedure_type := h.procedure_type
    score := h.score
    confidence_score := h.confidence_score
    success_rate := h.success_rate
    weighted_score := h.score * h.confidence_score * condFactor h.success_rate }

/-- The comparison of the final `$sort {weighted_score: -1}` stage. -/
def byWeightedDesc (a b : WeightedHit) : Prop := b.weighted_score ≤ a.weighted_score

/-- Meaning of recommend_procedure after the search stage: any permutation of
the weighted candidates ordered by descending `weighted_score` (single-key
sort, tie order unspecified by the store).  The per-candidate trigger-match
annotation queries the model but filters nothing. -/
def recommendSpec (hits : List ProcSearchHit) (out : List WeightedHit) : Prop :=
  out.Perm (hits.map addWeightedFields) ∧ out.Pairwise byWeightedDesc

/-- The spec sentence's claimed re-weighting, written from the specification's
words for comparison with the source's `condFactor`:
`confidence_score * max(success_rate, 0.5)`. -/
def weightedScoreClaimed (score conf sr : ℚ) : ℚ := score * conf * max sr (1/2)

/-- Concrete low-success-rate candidate of the C8 counterexample. -/
def c8Hit : ProcSearchHit :=
  { procedure_type := "rebalance", score := 1, confidence_score := 1,
    success_rate := some (1/4) }

/-- Concrete candidate of the C8 witness. -/
def c8HitW : ProcSearchHit :=
  { procedure_type := "harvest", score := 1, confidence_score := 1,
    success_rate := some (1/4) }

/-- One successful execution, recorded in the C7 witness. -/
def c7Record : ExecutionRecord :=
  { execution_date := 11, outcome := "success", metrics := "ok" }

/-! ## Theorems -/

/-- Every record a valid retrieval returns carries the adjusted score computed
by the `$addFields` stage from its own raw score and timestamp. -/
theorem adjusted_of_mem_retrieve (now : ℝ) (hits : List SearchHit) (out : List RankedHit)
    (hspec : retrieveMemoriesSpec now hits out) (r : RankedHit) (hr : r ∈ out) :
    r.adjusted_score = adjustedScore r.score (daysOld now r.timestamp) := by
  have hmem : r ∈ hits.map (addRecencyFields now) := hspec.1.subset hr
  obtain ⟨h, _, rfl⟩ := List.mem_map.1 hmem
  rfl

/-- Claim C1: every event record returned by `retrieve_memories` has
`adjusted_score = raw_score * exp(-age_in_days / 30)`, and for an event exactly
30 days old the adjusted score is `raw_score * e⁻¹`, so the ratio
`adjusted_score / raw_score` equals `e⁻¹` whenever the raw score is nonzero. -/
theorem retrieve_adjusted_score_decay (now : ℝ) (hits : List SearchHit)
    (out : List RankedHit) (hspec : retrieveMemoriesSpec now hits out)
    (r : RankedHit) (hr : r ∈ out) :
    r.adjusted_score = r.score * Real.exp (-(daysOld now r.timestamp) / 30) ∧
      (now - r.timestamp = 30 * 86400000 →
        r.adjusted_score = r.score * Real.exp (-1) ∧
          (r.score ≠ 0 → r.adjusted_score / r.score = Real.exp (-1))) := by
  have hadj := adjusted_of_mem_retrieve now hits out hspec r hr
  constructor
  · rw [hadj, adjustedScore]
    ring_nf
  · intro h30
    have hdays : daysOld now r.timestamp = 30 := by
      rw [daysOld, h30]
      norm_num
    have hval : r.adjusted_score = r.score * Real.exp (-1) := by
      rw [hadj, adjustedScore, hdays]
      norm_num
    refine ⟨hval, fun hs => ?_⟩
    rw [hval, mul_comm, mul_div_assoc, div_self hs, mul_one]

/-- Witness for claim C1's theorem: at query time 2592000000 ms the single
candidate `c1Hit` is exactly 30 days old, the singleton output satisfies the
retrieval spec, and the theorem yields the `e⁻¹` decay factor. -/
theorem retrieve_adjusted_score_decay_witness :
    retrieveMemoriesSpec 2592000000 [c1Hit] [addRecencyFields 2592000000 c1Hit] ∧
      (addRecencyFields 2592000000 c1Hit).adjusted_score =
        (addRecencyFields 2592000000 c1Hit).score * Real.exp (-1) := by
  have hspec : retrieveMemoriesSpec 2592000000 [c1Hit] [addRecencyFields 2592000000 c1Hit] :=
    ⟨List.Perm.refl _, List.pairwise_singleton _ _⟩
  refine ⟨hspec, ?_⟩
  have hmem : addRecencyFields 2592000000 c1Hit ∈ [addRecencyFields 2592000000 c1Hit] :=
    List.mem_singleton_self _
  have h30 : (2592000000 : ℝ) - (addRecencyFields 2592000000 c1Hit).timestamp =
      30 * 86400000 := by
    show (2592000000 : ℝ) - c1Hit.timestamp = 30 * 86400000
    rw [c1Hit]
    norm_num
  exact ((retrieve_adjusted_score_decay 2592000000 [c1Hit] _ hspec _ hmem).2 h30).1

/-- Adjusted score of a zero-score candidate is zero, whatever its age. -/
theorem adjustedScore_zero (days : ℝ) : adjustedScore 0 days = 0 := by
  rw [adjustedScore, zero_mul]

/-- Claim C9 counterexample: the claim asserts strict recency monotonicity
including the case of a shared raw score of zero, but when the shared raw score
is zero both adjusted scores are `0 * exp(...) = 0`, so a valid retrieval at
time 172800000 ranks `tieHitOld` and `tieHitNew` with equal adjusted scores and
the more recent event does not receive a strictly higher one. -/
theorem recency_not_strict_at_zero_score :
    tieHitOld.timestamp < tieHitNew.timestamp ∧ tieHitNew.score = tieHitOld.score ∧
      retrieveMemoriesSpec 172800000 [tieHitOld, tieHitNew]
        [addRecencyFields 172800000 tieHitOld, addRecencyFields 172800000 tieHitNew] ∧
      ¬ (addRecencyFields 172800000 tieHitOld).adjusted_score <
          (addRecencyFields 172800000 tieHitNew).adjusted_score := by
  have hold : (addRecencyFields 172800000 tieHitOld).adjusted_score = 0 := by
    show adjustedScore tieHitOld.score (daysOld 172800000 tieHitOld.timestamp) = 0
    rw [tieHitOld]
    exact adjustedScore_zero _
  have hnew : (addRecencyFields 172800000 tieHitNew).adjusted_score = 0 := by
    show adjustedScore tieHitNew.score (daysOld 172800000 tieHitNew.timestamp) = 0
    rw [tieHitNew]
    exact adjustedScore_zero _
  refine ⟨?_, ?_, ⟨List.Perm.refl _, ?_⟩, ?_⟩
  · rw [tieHitOld, tieHitNew]
    norm_num
  · rw [tieHitOld, tieHitNew]
  · refine List.pairwise_cons.2 ⟨?_, List.pairwise_singleton _ _⟩
    intro b hb
    rw [List.mem_singleton] at hb
    subst hb
    show (addRecencyFields 172800000 tieHitNew).adjusted_score ≤
      (addRecencyFields 172800000 tieHitOld).adjusted_score
    rw [hold, hnew]
  · rw [hold, hnew]
    exact lt_irrefl 0

/-- Strict monotonicity of the decay formula in the event age, for a positive
raw score. -/
theorem adjustedScore_lt_of_days_lt (s d1 d2 : ℝ) (hs : 0 < s) (hd : d2 < d1) :
    adjustedScore s d1 < adjustedScore s d2 := by
  rw [adjustedScore, adjustedScore]
  refine mul_lt_mul_of_pos_left (Real.exp_lt_exp.2 ?_) hs
  linarith

/-- Claim C9 amended: for two events returned by the same valid retrieval with
identical positive raw similarity scores, the one with the more recent
timestamp has a strictly higher adjusted score; with a shared raw score of
zero the adjusted scores are instead equal (both zero). -/
theorem recency_monotone_of_pos_score (now : ℝ) (hits : List SearchHit)
    (out : List RankedHit) (hspec : retrieveMemoriesSpec now hits out)
    (r1 r2 : RankedHit) (h1 : r1 ∈ out) (h2 : r2 ∈ out)
    (hscore : r2.score = r1.score) (hpos : 0 < r1.score)
    (hts : r1.timestamp < r2.timestamp) :
    r1.adjusted_score < r2.adjusted_score := by
  have e1 := adjusted_of_mem_retrieve now hits out hspec r1 h1
  have e2 := adjusted_of_mem_retrieve now hits out hspec r2 h2
  rw [e1, e2, hscore]
  refine adjustedScore_lt_of_days_lt _ _ _ hpos ?_
  rw [daysOld, daysOld]
  have : now - r2.timestamp < now - r1.timestamp := by linarith
  linarith

/-- Witness for the amended claim C9: at query time 2592000000 both concrete
events share raw score 1 and the more recent one gets the strictly higher
adjusted score in a valid retrieval. -/
theorem recency_monotone_of_pos_score_witness :
    (0 : ℝ) < (addRecencyFields 2592000000 c9PosOld).score ∧
      (addRecencyFields 2592000000 c9PosOld).adjusted_score <
        (addRecencyFields 2592000000 c9PosNew).adjusted_score := by
  have hpair : byAdjustedDesc (addRecencyFields 2592000000 c9PosNew)
      (addRecencyFields 2592000000 c9PosOld) := by
    show adjustedScore c9PosOld.score (daysOld 2592000000 c9PosOld.timestamp) ≤
      adjustedScore c9PosNew.score (daysOld 2592000000 c9PosNew.timestamp)
    rw [c9PosOld, c9PosNew]
    simp only [adjustedScore, daysOld, one_mul]
    rw [show ((2592000000 : ℝ) - 0) / 86400000 / 30 = 1 by norm_num]
    rw [show ((2592000000 : ℝ) - 2592000000) / 86400000 / 30 = 0 by norm_num]
    exact Real.exp_le_exp.2 (by norm_num)
  have hspec : retrieveMemoriesSpec 2592000000 [c9PosOld, c9PosNew]
      [addRecencyFields 2592000000 c9PosNew, addRecencyFields 2592000000 c9PosOld] := by
    constructor
    · exact List.Perm.swap _ _ _
    · exact List.pairwise_cons.2 ⟨fun b hb => by
        rw [List.mem_singleton] at hb
        rw [hb]
        exact hpair, List.pairwise_singleton _ _⟩
  refine ⟨by show (0 : ℝ) < c9PosOld.score; rw [c9PosOld]; norm_num, ?_⟩
  exact recency_monotone_of_pos_score 2592000000 [c9PosOld, c9PosNew] _ hspec
    (addRecencyFields 2592000000 c9PosOld) (addRecencyFields 2592000000 c9PosNew)
    (List.mem_cons_of_mem _ (List.mem_singleton_self _)) (List.mem_cons_self _ _)
    rfl (by show (0 : ℝ) < c9PosOld.score; rw [c9PosOld]; norm_num)
    (by show c9PosOld.timestamp < c9PosNew.timestamp; rw [c9PosOld, c9PosNew]; norm_num)

/-- Claim C5 counterexample: with two candidates tied at adjusted score zero,
both orders satisfy the pipeline's single-key sort, so the output is not the
claimed fully deterministic sequence; in particular the valid output that
lists the older event first violates the claimed descending-timestamp
tie-break even though both raw scores and both adjusted scores agree. -/
theorem sort_ties_not_deterministic :
    retrieveMemoriesSpec 172800000 [tieHitOld, tieHitNew]
        [addRecencyFields 172800000 tieHitOld, addRecencyFields 172800000 tieHitNew] ∧
      retrieveMemoriesSpec 172800000 [tieHitOld, tieHitNew]
        [addRecencyFields 172800000 tieHitNew, addRecencyFields 172800000 tieHitOld] ∧
      addRecencyFields 172800000 tieHitOld ≠ addRecencyFields 172800000 tieHitNew ∧
      (addRecencyFields 172800000 tieHitOld).timestamp <
        (addRecencyFields 172800000 tieHitNew).timestamp ∧
      (addRecencyFields 172800000 tieHitOld).score =
        (addRecencyFields 172800000 tieHitNew).score := by
  have hold : (addRecencyFields 172800000 tieHitOld).adjusted_score = 0 := by
    show adjustedScore tieHitOld.score (daysOld 172800000 tieHitOld.timestamp) = 0
    rw [tieHitOld]
    exact adjustedScore_zero _
  have hnew : (addRecencyFields 172800000 tieHitNew).adjusted_score = 0 := by
    show adjustedScore tieHitNew.score (daysOld 172800000 tieHitNew.timestamp) = 0
    rw [tieHitNew]
    exact adjustedScore_zero _
  have hpw : ∀ a b : RankedHit, a.adjusted_score = 0 → b.adjusted_score = 0 →
      List.Pairwise byAdjustedDesc [a, b] := by
    intro a b ha hb
    refine List.pairwise_cons.2 ⟨fun c hc => ?_, List.pairwise_singleton _ _⟩
    rw [List.mem_singleton] at hc
    rw [hc]
    show b.adjusted_score ≤ a.adjusted_score
    rw [ha, hb]
  refine ⟨⟨List.Perm.refl _, hpw _ _ hold hnew⟩,
    ⟨List.Perm.swap _ _ _, hpw _ _ hnew hold⟩, ?_, ?_, ?_⟩
  · intro h
    have hts := congrArg RankedHit.timestamp h
    have h0 : (addRecencyFields 172800000 tieHitOld).timestamp = 0 := rfl
    have h1 : (addRecencyFields 172800000 tieHitNew).timestamp = 86400000 := rfl
    rw [h0, h1] at hts
    norm_num at hts
  · show tieHitOld.timestamp < tieHitNew.timestamp
    rw [tieHitOld, tieHitNew]
    norm_num
  · show tieHitOld.score = tieHitNew.score
    rw [tieHitOld, tieHitNew]

/-- Two permutations of each other that are both pairwise-ordered by an
asymmetric relation coincide. -/
theorem eq_of_perm_of_pairwise_asymm {α : Type} {r : α → α → Prop}
    (hasym : ∀ a b, r a b → r b a → False) :
    ∀ l1 l2 : List α, l1.Perm l2 → l1.Pairwise r → l2.Pairwise r → l1 = l2 := by
  intro l1
  induction l1 with
  | nil =>
    intro l2 hp _ _
    exact hp.nil_eq
  | cons a t ih =>
    intro l2 hp hp1 hp2
    cases l2 with
    | nil => exact absurd hp.symm.nil_eq (by simp)
    | cons b t2 =>
      rcases List.pairwise_cons.1 hp1 with ⟨ha, hpt⟩
      rcases List.pairwise_cons.1 hp2 with ⟨hb, hpt2⟩
      by_cases hab : a = b
      · subst hab
        rw [ih t2 hp.cons_inv hpt hpt2]
      · have ha2 : a ∈ t2 := by
          have hma := hp.subset (List.mem_cons_self a t)
          rcases List.mem_cons.1 hma with h | h
          · exact absurd h hab
          · exact h
        have hb1 : b ∈ t := by
          have hmb := hp.symm.subset (List.mem_cons_self b t2)
          rcases List.mem_cons.1 hmb with h | h
          · exact absurd h.symm hab
          · exact h
        exact absurd (ha b hb1) (fun hr => hasym a b hr (hb a ha2))

/-- Claim C5 amended: the pipeline orders the output by descending
`adjusted_score` only; no raw-score or timestamp tie-break exists, so the
output order is fully determined exactly when no two candidates share an
adjusted score — under that distinctness hypothesis any two valid outputs for
the same store contents and query coincide. -/
theorem retrieve_order_unique_of_distinct (now : ℝ) (hits : List SearchHit)
    (out1 out2 : List RankedHit)
    (h1 : retrieveMemoriesSpec now hits out1) (h2 : retrieveMemoriesSpec now hits out2)
    (hdist : (hits.map (addRecencyFields now)).Pairwise
      (fun a b => a.adjusted_score ≠ b.adjusted_score)) :
    out1 = out2 ∧ out1.Pairwise byAdjustedDesc := by
  have hne1 : out1.Pairwise (fun a b : RankedHit => a.adjusted_score ≠ b.adjusted_score) :=
    ((h1.1).pairwise_iff (fun h => Ne.symm h)).2 hdist
  have hne2 : out2.Pairwise (fun a b : RankedHit => a.adjusted_score ≠ b.adjusted_score) :=
    ((h2.1).pairwise_iff (fun h => Ne.symm h)).2 hdist
  have hstrict : ∀ out : List RankedHit, out.Pairwise byAdjustedDesc →
      out.Pairwise (fun a b : RankedHit => a.adjusted_score ≠ b.adjusted_score) →
      out.Pairwise (fun a b : RankedHit => b.adjusted_score < a.adjusted_score) := by
    intro out hle hne
    exact (hle.and hne).imp (fun hab => lt_of_le_of_ne hab.1 (Ne.symm hab.2))
  exact ⟨eq_of_perm_of_pairwise_asymm (fun a b hab hba => lt_asymm hab hba)
      out1 out2 (h1.1.trans h2.1.symm) (hstrict out1 h1.2 hne1) (hstrict out2 h2.2 hne2),
    h1.2⟩

/-- Witness for the amended claim C5: on a concrete two-candidate store with
distinct adjusted scores 2 and 1, the retrieval spec holds of `c5OutW` and the
amended theorem applies, giving uniqueness of the output. -/
theorem retrieve_order_unique_of_distinct_witness :
    retrieveMemoriesSpec 0 [c5HitA, c5HitB] c5OutW ∧
      (c5OutW = c5OutW ∧ c5OutW.Pairwise byAdjustedDesc) := by
  have hA : (addRecencyFields 0 c5HitA).adjusted_score = 2 := by
    show adjustedScore c5HitA.score (daysOld 0 c5HitA.timestamp) = 2
    rw [c5HitA]
    simp [adjustedScore, daysOld]
  have hB : (addRecencyFields 0 c5HitB).adjusted_score = 1 := by
    show adjustedScore c5HitB.score (daysOld 0 c5HitB.timestamp) = 1
    rw [c5HitB]
    simp [adjustedScore, daysOld]
  have hspec : retrieveMemoriesSpec 0 [c5HitA, c5HitB] c5OutW := by
    refine ⟨List.Perm.refl _, List.pairwise_cons.2 ⟨fun c hc => ?_, List.pairwise_singleton _ _⟩⟩
    rw [List.mem_singleton] at hc
    rw [hc]
    show (addRecencyFields 0 c5HitB).adjusted_score ≤ (addRecencyFields 0 c5HitA).adjusted_score
    rw [hA, hB]
    norm_num
  have hdist : (([c5HitA, c5HitB]).map (addRecencyFields 0)).Pairwise
      (fun a b => a.adjusted_score ≠ b.adjusted_score) := by
    simp only [List.map_cons, List.map_nil]
    refine List.pairwise_cons.2 ⟨fun c hc => ?_, List.pairwise_singleton _ _⟩
    rw [List.mem_singleton] at hc
    rw [hc, hA, hB]
    norm_num
  exact ⟨hspec, retrieve_order_unique_of_distinct 0 [c5HitA, c5HitB] c5OutW c5OutW
    hspec hspec hdist⟩

/-- When every post to the embedding service fails, get_embedding degrades to
the RNG fallback whatever the API-key environment looks like. -/
theorem get_embedding_fallback (apiKey : Option String)
    (post : String → Except Unit (List ℚ)) (rng : Nat → ℚ) (text : String)
    (hpost : post text = Except.error ()) :
    get_embedding apiKey post rng text = fallbackEmbedding rng := by
  cases apiKey with
  | none => rfl
  | some k =>
    show (match post text with
      | Except.ok v => v
      | Except.error _ => fallbackEmbedding rng) = fallbackEmbedding rng
    rw [hpost]

/-- The fallback embedding always has the declared index dimensionality
1024. -/
theorem fallbackEmbedding_length (rng : Nat → ℚ) : (fallbackEmbedding rng).length = 1024 := by
  rw [fallbackEmbedding, List.length_map, List.length_range]

/-- Binding an `Except` success is transparent; stated once so that `simp` can
reduce the monadic sequencing of the embedded operations. -/
theorem exceptBind_ok {ε α β : Type} (a : α) (f : α → Except ε β) :
    (Except.ok a : Except ε α) >>= f = f a := rfl

/-- Binding an `Except` failure short-circuits. -/
theorem exceptBind_error {ε α β : Type} (e : ε) (f : α → Except ε β) :
    (Except.error e : Except ε α) >>= f = Except.error e := rfl

set_option maxRecDepth 4000 in
/-- Claim C6 amended: if the embedding gateway raises on every call while the
summarizer and the insert succeed, `add_event` still persists exactly one
record whose embedding is the 1024-component RNG fallback vector (hence of the
declared fixed dimensionality) and whose `full_transcript` equals the input
transcript verbatim; the embedding failure is not propagated: the call
returns normally. -/
theorem add_event_embed_gateway_down (gw : EpisodicGateways)
    (store : List EpisodicEventDoc) (memId : String) (nowTs : Nat)
    (client_id transcript agent_source : String) (related_assets : List String)
    (event_type : String) (timestamp : Option Nat) (summary : String)
    (tagList : List String)
    (hpost : ∀ t, gw.post t = Except.error ())
    (hsum : gw.summarize transcript = Except.ok summary)
    (htags : gw.extractTags transcript = Except.ok tagList) :
    ∃ doc : EpisodicEventDoc,
      add_event gw true store memId nowTs client_id transcript agent_source
          related_assets event_type none timestamp = Except.ok (store ++ [doc], doc) ∧
        doc.full_transcript = transcript ∧
        doc.embedding = fallbackEmbedding gw.rng ∧
        doc.embedding.length = 1024 := by
  refine ⟨{ memory_id := memId
            client_id := client_id
            agent_source := agent_source
            timestamp := timestamp.getD nowTs
            event_type := event_type
            event_summary := summary
            full_transcript := transcript
            participants := [agent_source, "client"]
            related_assets := related_assets
            embedding := fallbackEmbedding gw.rng
            tags := tagList
            importance_score := 1/2
            emotional_valence := "neutral"
            created_at := nowTs
            last_accessed := nowTs
            access_count := 0 }, ?_, rfl, rfl, fallbackEmbedding_length _⟩
  have hge : get_embedding gw.apiKey gw.post gw.rng summary = fallbackEmbedding gw.rng :=
    get_embedding_fallback _ _ _ _ (hpost summary)
  simp [add_event, hsum, htags, hge, exceptBind_ok]

/-- Witness for the amended claim C6: with `gwDownW` all embedding posts fail,
yet the concrete `add_event` call persists one record carrying the RNG
fallback vector of length 1024 and the verbatim transcript. -/
theorem add_event_embed_gateway_down_witness :
    (∀ t, gwDownW.post t = Except.error ()) ∧
      ∃ doc : EpisodicEventDoc,
        add_event gwDownW true [] "ep_w" 5 "client_101" "hello" "advisor" []
            "client_onboarding" none none = Except.ok ([] ++ [doc], doc) ∧
          doc.full_transcript = "hello" ∧
          doc.embedding = fallbackEmbedding gwDownW.rng ∧
          doc.embedding.length = 1024 :=
  ⟨fun _ => rfl,
    add_event_embed_gateway_down gwDownW [] "ep_w" 5 "client_101" "hello" "advisor" []
      "client_onboarding" none "sum:hello" ["onboarding"] (fun _ => rfl) rfl rfl⟩

set_option maxRecDepth 8000 in
/-- Claim C6 counterexample: when the embedding gateway raises on every call,
the persisted record's embedding is NOT the zero vector the claim names — the
source falls back to 1024 fresh RNG draws (`random.random()`), here the
nonzero vector of halves — although it does have the declared length 1024, the
transcript is preserved verbatim, and no failure propagates. -/
theorem embedding_fallback_not_zero_vector :
    add_event gwRandFail true [] "ep_x" 5 "client_101" "hello" "advisor" []
        "client_meeting" none none = Except.ok ([c6Doc], c6Doc) ∧
      c6Doc.embedding ≠ List.replicate 1024 (0 : ℚ) ∧
      c6Doc.embedding.length = 1024 ∧
      c6Doc.full_transcript = "hello" := by
  refine ⟨rfl, ?_, fallbackEmbedding_length _, rfl⟩
  intro h
  have h0 := congrArg (fun l : List ℚ => l[0]?) h
  have hfb : (fallbackEmbedding rngHalf)[0]? = some (1/2 : ℚ) := by
    rw [fallbackEmbedding, List.getElem?_map,
      List.getElem?_range (by norm_num : (0 : Nat) < 1024)]
    rfl
  have hz : (List.replicate 1024 (0 : ℚ))[0]? = some 0 := by
    rw [List.getElem?_replicate]
    norm_num
  have : c6Doc.embedding = fallbackEmbedding rngHalf := rfl
  rw [this] at h0
  simp only [hfb, hz] at h0
  have hq : (1/2 : ℚ) = 0 := by
    injection h0
  norm_num at hq

/-- When the store insert raises, the underlying `add_event` fails whatever
the gateways did. -/
theorem add_event_insert_down (gw : EpisodicGateways) (store : List EpisodicEventDoc)
    (memId : String) (nowTs : Nat) (client_id transcript agent_source : String)
    (related_assets : List String) (event_type : String) (tags : Option (List String))
    (timestamp : Option Nat) :
    add_event gw false store memId nowTs client_id transcript agent_source
      related_assets event_type tags timestamp = Except.error () := by
  cases hsumv : gw.summarize transcript with
  | error e =>
    cases e
    simp [add_event, hsumv, exceptBind_error]
  | ok summary =>
    cases tags with
    | some t => simp [add_event, hsumv, exceptBind_ok]
    | none =>
      cases htv : gw.extractTags transcript with
      | error e =>
        cases e
        simp [add_event, hsumv, htv, exceptBind_ok, exceptBind_error]
      | ok t => simp [add_event, hsumv, htv, exceptBind_ok, exceptBind_error]

/-- Successful run of the underlying `add_event` when both text gateways
answer: exactly the built document is appended and returned. -/
theorem add_event_ok (gw : EpisodicGateways) (store : List EpisodicEventDoc)
    (memId : String) (nowTs : Nat) (client_id transcript agent_source : String)
    (related_assets : List String) (event_type : String) (timestamp : Option Nat)
    (summary : String) (tagList : List String)
    (hsum : gw.summarize transcript = Except.ok summary)
    (htags : gw.extractTags transcript = Except.ok tagList) :
    add_event gw true store memId nowTs client_id transcript agent_source
        related_assets event_type none timestamp =
      Except.ok
        (store ++ [builtDoc gw memId nowTs client_id transcript agent_source
            related_assets event_type summary tagList timestamp],
          builtDoc gw memId nowTs client_id transcript agent_source
            related_assets event_type summary tagList timestamp) := by
  rw [add_event, hsum, exceptBind_ok]
  show (gw.extractTags transcript >>= fun tagList => _) = _
  rw [htags, exceptBind_ok]
  rfl

/-- Claim C10 counterexample: the claim says the wrapper prepends
`"[agent_source] "` whenever an agent_source is given, but Python tests the
argument for truthiness, so the given-but-empty agent_source is not prepended:
the persisted document carries the bare transcript rather than the claimed
`"[] "`-prefixed one. -/
theorem empty_agent_source_not_prefixed :
    formatTranscript (some "") "hello" = "hello" ∧ "hello" ≠ "[] " ++ "hello" ∧
      (∃ doc : EpisodicEventDoc,
        callWrapperAddEvent gwHubW true [] "ep_e" "oid_e" 9
            { client_id := "client_101", content := some "hello",
              agent_source := some "", event_type := "analysis",
              timestamp := none, kwargs := [] }
          = Except.ok ([doc], "oid_e") ∧ doc.full_transcript = "hello") := by
  refine ⟨rfl, ?_, ?_⟩
  · intro h
    exact absurd h (by decide)
  · exact ⟨builtDoc gwHubW "ep_e" 9 "client_101" "hello" "portfolio_manager" []
      "analysis" "s" [] (some 9), rfl, rfl⟩

/-- Claim C10 amended: once `content` is bound, the wrapper's `add_event`
returns for every input rather than raising — in particular a store insert
that raises is caught and turned into the empty-string id with the store
unchanged, so an orchestration run continues past a failed episodic log with
no audit event persisted and no error signalled — and when a NON-EMPTY
agent_source is given the persisted transcript is the input prefixed with
`"[" ++ agent_source ++ "] "` (an empty agent_source, like a missing one, is
falsy in Python and leaves the transcript bare). -/
theorem wrapper_add_event_total_and_prefixed (gw : EpisodicGateways)
    (store : List EpisodicEventDoc) (memId oid : String) (nowTs : Nat)
    (client_id event_type content s summary : String) (tagList : List String)
    (hs : (s == "") = false)
    (hsum : gw.summarize ("[" ++ s ++ "] " ++ content) = Except.ok summary)
    (htags : gw.extractTags ("[" ++ s ++ "] " ++ content) = Except.ok tagList) :
    (∀ (gw' : EpisodicGateways) (insertOk : Bool) (c : AddEventCall) (t : String),
      c.content = some t → ∃ p, callWrapperAddEvent gw' insertOk store memId oid nowTs c
        = Except.ok p) ∧
      (∀ insertOk c, c.content = none →
        callWrapperAddEvent gw insertOk store memId oid nowTs c
          = Except.error typeErrorMsg) ∧
      wrapperAdd gw false store memId oid nowTs client_id event_type content none
        = (store, "") ∧
      ∃ doc : EpisodicEventDoc,
        callWrapperAddEvent gw true store memId oid nowTs
            { client_id := client_id, content := some content, agent_source := some s,
              event_type := event_type, timestamp := none, kwargs := [] }
          = Except.ok (store ++ [doc], oid) ∧
          doc.full_transcript = "[" ++ s ++ "] " ++ content := by
  refine ⟨?_, ?_, ?_, ?_⟩
  · intro gw' insertOk c t hc
    refine ⟨wrapperAdd gw' insertOk store memId oid nowTs c.client_id c.event_type
      (formatTranscript c.agent_source ((c.kwargs.lookup "transcript").getD t))
      c.timestamp, ?_⟩
    rw [callWrapperAddEvent, hc]
  · intro insertOk c hc
    rw [callWrapperAddEvent, hc]
  · rw [wrapperAdd, add_event_insert_down]
  · have hfmt : formatTranscript (some s) content = "[" ++ s ++ "] " ++ content := by
      rw [formatTranscript]
      rw [hs]
      rfl
    refine ⟨builtDoc gw memId nowTs client_id ("[" ++ s ++ "] " ++ content)
      "portfolio_manager" [] event_type summary tagList (some nowTs), ?_, rfl⟩
    have hlhs : callWrapperAddEvent gw true store memId oid nowTs
        { client_id := client_id, content := some content, agent_source := some s,
          event_type := event_type, timestamp := none, kwargs := [] } =
        Except.ok (wrapperAdd gw true store memId oid nowTs client_id event_type
          (formatTranscript (some s) content) none) := rfl
    rw [hlhs, hfmt, wrapperAdd]
    simp only [Option.getD_none]
    rw [add_event_ok gw store memId nowTs client_id ("[" ++ s ++ "] " ++ content)
      "portfolio_manager" [] event_type (some nowTs) summary tagList hsum htags]

/-- Witness for the amended claim C10 at concrete inputs: agent_source
"advisor" is non-empty, bound calls return, an insert failure yields the
empty id with the store unchanged, and the persisted transcript carries the
"[advisor] " pre-marker. -/
theorem wrapper_add_event_total_and_prefixed_witness :
    (("advisor" == "") = false) ∧
      ((∀ (gw' : EpisodicGateways) (insertOk : Bool) (c : AddEventCall) (t : String),
        c.content = some t → ∃ p, callWrapperAddEvent gw' insertOk [] "ep_w" "oid_w" 9 c
          = Except.ok p) ∧
      (∀ insertOk c, c.content = none →
        callWrapperAddEvent gwHubW insertOk [] "ep_w" "oid_w" 9 c
          = Except.error typeErrorMsg) ∧
      wrapperAdd gwHubW false [] "ep_w" "oid_w" 9 "client_101" "analysis" "hello" none
        = ([], "") ∧
      ∃ doc : EpisodicEventDoc,
        callWrapperAddEvent gwHubW true [] "ep_w" "oid_w" 9
            { client_id := "client_101", content := some "hello",
              agent_source := some "advisor", event_type := "analysis",
              timestamp := none, kwargs := [] }
          = Except.ok ([] ++ [doc], "oid_w") ∧
          doc.full_transcript = "[" ++ "advisor" ++ "] " ++ "hello") :=
  ⟨by decide,
    wrapper_add_event_total_and_prefixed gwHubW [] "ep_w" "oid_w" 9 "client_101"
      "analysis" "hello" "advisor" "s" [] (by decide) rfl rfl⟩

/-- Claim C2 (code bug): for every client payload — and whatever the model,
the gateways, the store and the clock do — `comprehensive_analysis` raises
`TypeError` during phase 1: the market-research agent's own episodic log calls
the wrapper's `add_event` with the text under the keyword `transcript`,
leaving the required positional parameter `content` unbound (despite the
wrapper's docstring promising that compatibility), so the run never returns
the six-key results mapping and persists no episodic event at all. -/
theorem comprehensive_analysis_raises_type_error (llm : String → String)
    (gw : EpisodicGateways) (insertOk : Bool) (idgen : Nat → String) (nowTs : Nat)
    (cd : ClientData) (st0 : OrchestratorState) :
    comprehensive_analysis llm gw insertOk idgen nowTs cd st0
      = Except.error typeErrorMsg := rfl

/-- Shape of an update that found no active record: plain create. -/
theorem update_none_eq (sumw : String → Except Unit String)
    (embw : String → Except Unit (List ℚ)) (now : Nat) (st : SemanticStore)
    (client_id memory_type d : String)
    (hget : get_semantic_memory st client_id memory_type = none) :
    update_semantic_memory sumw embw now st client_id memory_type d
      = create_semantic_memory sumw embw now st client_id memory_type d := by
  rw [update_semantic_memory, hget]

/-- Shape of an update that found the active record `cur`: archive it,
deactivate it, then create over the mutated store. -/
theorem update_some_eq (sumw : String → Except Unit String)
    (embw : String → Except Unit (List ℚ)) (now : Nat) (st : SemanticStore)
    (client_id memory_type d : String) (cur : SemanticDoc)
    (hget : get_semantic_memory st client_id memory_type = some cur) :
    update_semantic_memory sumw embw now st client_id memory_type d
      = create_semantic_memory sumw embw now
          { docs := st.docs.map (deactivateOid cur.oid)
            archive := st.archive ++ [(cur, now)]
            nextOid := st.nextOid } client_id memory_type d := by
  rw [update_semantic_memory, hget]

/-- `find_one` returns the head of the filtered collection. -/
theorem find?_eq_head?_filter {α : Type} (p : α → Bool) :
    ∀ l : List α, l.find? p = (l.filter p).head? := by
  intro l
  induction l with
  | nil => rfl
  | cons a t ih =>
    by_cases h : p a
    · rw [List.find?_cons_of_pos _ h, List.filter_cons_of_pos h]
      rfl
    · rw [List.find?_cons_of_neg _ h, List.filter_cons_of_neg h, ih]

/-- What a successful create does to the store. -/
theorem create_ok (sumw : String → Except Unit String)
    (embw : String → Except Unit (List ℚ)) (now : Nat) (st : SemanticStore)
    (client_id memory_type data s : String) (e : List ℚ)
    (h : summarizeAndEmbed sumw embw data = Except.ok (s, e)) :
    create_semantic_memory sumw embw now st client_id memory_type data =
      ({ docs := st.docs ++ [createdDoc now st client_id memory_type data s e]
         archive := st.archive
         nextOid := st.nextOid + 1 }, Except.ok ()) := by
  rw [create_semantic_memory, h]

/-- A freshly created document passes its own active filter. -/
theorem createdDoc_active (now : Nat) (st : SemanticStore)
    (client_id memory_type data s : String) (e : List ℚ) :
    activeFilter client_id memory_type (createdDoc now st client_id memory_type data s e)
      = true := by
  simp [activeFilter, createdDoc]

/-- A successful create appends one new active document for the pair and
leaves the archive alone. -/
theorem create_ok_activeDocs (sumw : String → Except Unit String)
    (embw : String → Except Unit (List ℚ)) (now : Nat) (st : SemanticStore)
    (client_id memory_type data s : String) (e : List ℚ)
    (h : summarizeAndEmbed sumw embw data = Except.ok (s, e)) :
    activeDocs (create_semantic_memory sumw embw now st client_id memory_type data).1
        client_id memory_type =
      activeDocs st client_id memory_type ++
        [createdDoc now st client_id memory_type data s e] ∧
      (create_semantic_memory sumw embw now st client_id memory_type data).1.archive
        = st.archive := by
  rw [create_ok sumw embw now st client_id memory_type data s e h]
  constructor
  · rw [activeDocs, activeDocs]
    show (st.docs ++ [createdDoc now st client_id memory_type data s e]).filter _ = _
    rw [List.filter_append, List.filter_cons_of_pos (createdDoc_active _ _ _ _ _ _ _)]
    rfl
  · rfl

/-- Deactivating the only active document of a pair leaves the pair with no
active document, whatever the id-keyed update touches besides it. -/
theorem activeDocs_deactivate (docs : List SemanticDoc) (cur : SemanticDoc)
    (client_id memory_type : String)
    (hact : docs.filter (activeFilter client_id memory_type) = [cur]) :
    (docs.map (deactivateOid cur.oid)).filter (activeFilter client_id memory_type)
      = [] := by
  rw [List.filter_eq_nil_iff]
  intro x hx
  obtain ⟨d, hd, rfl⟩ := List.mem_map.1 hx
  by_cases ho : (d.oid == cur.oid) = true
  · rw [deactivateOid, if_pos ho]
    simp [activeFilter]
  · rw [deactivateOid, if_neg ho]
    intro hpd
    have hmem : d ∈ docs.filter (activeFilter client_id memory_type) :=
      List.mem_filter.2 ⟨hd, hpd⟩
    rw [hact, List.mem_singleton] at hmem
    subst hmem
    exact ho (by simp)

/-- The single active document of a pair matches the pair's archive filter. -/
theorem activeFilter_fields (cur : SemanticDoc) (client_id memory_type : String)
    (h : activeFilter client_id memory_type cur = true) :
    (cur.client_id == client_id && cur.memory_type == memory_type) = true := by
  rw [activeFilter] at h
  simp only [Bool.and_eq_true] at h
  simp [h.1.1, h.1.2]

/-- What one update does when the pair has exactly one active document and the
gateways succeed: the pair keeps exactly one active document (the fresh one)
and gains exactly one archive entry (the superseded one). -/
theorem update_step (sumw : String → Except Unit String)
    (embw : String → Except Unit (List ℚ)) (now : Nat) (st : SemanticStore)
    (client_id memory_type new_data s : String) (e : List ℚ) (cur : SemanticDoc)
    (hok : summarizeAndEmbed sumw embw new_data = Except.ok (s, e))
    (hact : activeDocs st client_id memory_type = [cur]) :
    ∃ fresh : SemanticDoc,
      activeDocs (update_semantic_memory sumw embw now st client_id memory_type new_data).1
          client_id memory_type = [fresh] ∧
      archivedFor (update_semantic_memory sumw embw now st client_id memory_type new_data).1
          client_id memory_type
        = archivedFor st client_id memory_type ++ [(cur, now)] := by
  have hcur_active : activeFilter client_id memory_type cur = true := by
    have : cur ∈ st.docs.filter (activeFilter client_id memory_type) := by
      rw [activeDocs] at hact
      rw [hact]
      exact List.mem_singleton_self _
    exact (List.mem_filter.1 this).2
  have hget : get_semantic_memory st client_id memory_type = some cur := by
    rw [get_semantic_memory, find?_eq_head?_filter]
    rw [activeDocs] at hact
    rw [hact]
    rfl
  rw [update_semantic_memory, hget]
  set st2 : SemanticStore :=
    { docs := st.docs.map (deactivateOid cur.oid)
      archive := st.archive ++ [(cur, now)]
      nextOid := st.nextOid } with hst2
  have hempty : activeDocs st2 client_id memory_type = [] := by
    rw [hst2, activeDocs]
    exact activeDocs_deactivate st.docs cur client_id memory_type
      (by rw [activeDocs] at hact; exact hact)
  obtain ⟨hactive, harch⟩ :=
    create_ok_activeDocs sumw embw now st2 client_id memory_type new_data s e hok
  refine ⟨createdDoc now st2 client_id memory_type new_data s e, ?_, ?_⟩
  · rw [hactive, hempty]
    rfl
  · rw [archivedFor, harch, hst2]
    show (st.archive ++ [(cur, now)]).filter _ = _
    rw [List.filter_append, archivedFor]
    congr 1
    rw [List.filter_cons_of_pos]
    · rfl
    · exact activeFilter_fields cur client_id memory_type hcur_active

/-- Folding updates over a store with exactly one active document for the
pair keeps exactly one active document and archives exactly one entry per
update. -/
theorem updates_fold (sumw : String → Except Unit String)
    (embw : String → Except Unit (List ℚ)) (now : Nat) (client_id memory_type : String)
    (hok : ∀ d, ∃ s e, summarizeAndEmbed sumw embw d = Except.ok (s, e)) :
    ∀ (datas : List String) (st : SemanticStore) (cur : SemanticDoc),
      activeDocs st client_id memory_type = [cur] →
      (activeDocs (datas.foldl
          (fun acc dd => (update_semantic_memory sumw embw now acc client_id memory_type dd).1)
          st) client_id memory_type).length = 1 ∧
        (archivedFor (datas.foldl
            (fun acc dd => (update_semantic_memory sumw embw now acc client_id memory_type dd).1)
            st) client_id memory_type).length
          = (archivedFor st client_id memory_type).length + datas.length := by
  intro datas
  induction datas with
  | nil =>
    intro st cur h
    rw [List.foldl_nil, h]
    exact ⟨rfl, rfl⟩
  | cons dd rest ih =>
    intro st cur h
    obtain ⟨s, e, hse⟩ := hok dd
    obtain ⟨fresh, hfresh, harch⟩ :=
      update_step sumw embw now st client_id memory_type dd s e cur hse h
    rw [List.foldl_cons]
    obtain ⟨h1, h2⟩ :=
      ih (update_semantic_memory sumw embw now st client_id memory_type dd).1 fresh hfresh
    refine ⟨h1, ?_⟩
    rw [h2, harch, List.length_append]
    simp only [List.length_cons, List.length_nil]
    omega

/-- Claim C3 amended: after a create followed by any finite number of updates
on the same `(client_id, memory_type)` — starting from a store with no active
record for the pair, with the gateways succeeding — the store holds exactly
one active record for the pair and the pair's archive has gained exactly one
entry per update performed.  (The claim as stated fails because a second
create while a record is active inserts a second active record; creates must
open a lineage, not repeat inside one.) -/
theorem single_active_invariant (sumw : String → Except Unit String)
    (embw : String → Except Unit (List ℚ)) (now : Nat) (st0 : SemanticStore)
    (client_id memory_type d0 : String) (datas : List String)
    (hok : ∀ d, ∃ s e, summarizeAndEmbed sumw embw d = Except.ok (s, e))
    (hempty : activeDocs st0 client_id memory_type = []) :
    (activeDocs (datas.foldl
        (fun acc dd => (update_semantic_memory sumw embw now acc client_id memory_type dd).1)
        (create_semantic_memory sumw embw now st0 client_id memory_type d0).1)
      client_id memory_type).length = 1 ∧
      (archivedFor (datas.foldl
          (fun acc dd => (update_semantic_memory sumw embw now acc client_id memory_type dd).1)
          (create_semantic_memory sumw embw now st0 client_id memory_type d0).1)
        client_id memory_type).length
        = (archivedFor st0 client_id memory_type).length + datas.length := by
  obtain ⟨s, e, hse⟩ := hok d0
  obtain ⟨hact, harch⟩ :=
    create_ok_activeDocs sumw embw now st0 client_id memory_type d0 s e hse
  rw [hempty] at hact
  have hact' : activeDocs (create_semantic_memory sumw embw now st0 client_id memory_type d0).1
      client_id memory_type = [createdDoc now st0 client_id memory_type d0 s e] := by
    rw [hact]
    rfl
  have harch' : archivedFor (create_semantic_memory sumw embw now st0 client_id memory_type d0).1
      client_id memory_type = archivedFor st0 client_id memory_type := by
    rw [archivedFor, archivedFor, harch]
  obtain ⟨h1, h2⟩ := updates_fold sumw embw now client_id memory_type hok datas
    (create_semantic_memory sumw embw now st0 client_id memory_type d0).1
    (createdDoc now st0 client_id memory_type d0 s e) hact'
  rw [harch'] at h2
  exact ⟨h1, h2⟩

/-- Claim C3 counterexample: two consecutive creates for the same pair on an
empty store leave TWO active records — create never deactivates or archives an
existing active record, so a sequence of create/update calls containing a
second create violates the claimed single-active invariant. -/
theorem double_create_two_active :
    (activeDocs (create_semantic_memory sumOk embOk 0
        (create_semantic_memory sumOk embOk 0 emptySemStore "client_101" "profile" "d1").1
        "client_101" "profile" "d2").1 "client_101" "profile").length = 2 ∧
      (activeDocs (create_semantic_memory sumOk embOk 0
          (create_semantic_memory sumOk embOk 0 emptySemStore "client_101" "profile" "d1").1
          "client_101" "profile" "d2").1 "client_101" "profile").length ≠ 1 := by
  refine ⟨?_, ?_⟩ <;> decide

/-- Witness for the amended claim C3: a create followed by two updates on an
empty store, with echoing gateways, ends with one active record and two
archive entries for the pair. -/
theorem single_active_invariant_witness :
    (∀ d, ∃ s e, summarizeAndEmbed sumOk embOk d = Except.ok (s, e)) ∧
      activeDocs emptySemStore "client_101" "profile" = [] ∧
      ((activeDocs ((["d1", "d2"] : List String).foldl
          (fun acc dd => (update_semantic_memory sumOk embOk 3 acc "client_101" "profile" dd).1)
          (create_semantic_memory sumOk embOk 3 emptySemStore "client_101" "profile" "d0").1)
        "client_101" "profile").length = 1 ∧
      (archivedFor ((["d1", "d2"] : List String).foldl
          (fun acc dd => (update_semantic_memory sumOk embOk 3 acc "client_101" "profile" dd).1)
          (create_semantic_memory sumOk embOk 3 emptySemStore "client_101" "profile" "d0").1)
        "client_101" "profile").length
        = (archivedFor emptySemStore "client_101" "profile").length + 2) :=
  ⟨fun d => ⟨d, [], rfl⟩, rfl,
    single_active_invariant sumOk embOk 3 emptySemStore "client_101" "profile" "d0"
      ["d1", "d2"] (fun d => ⟨d, [], rfl⟩) rfl⟩

/-- Claim C4 amended: when summarization or embedding fails, the error
propagates and no new record is persisted; a failing create leaves the store
fully unchanged, and so does a failing update that found no active record —
but a failing update that found an active record has already archived it and
set it inactive before the failure strikes, leaving the pair with no active
record. -/
theorem semantic_failure_propagation (sumw : String → Except Unit String)
    (embw : String → Except Unit (List ℚ)) (now : Nat) (st : SemanticStore)
    (client_id memory_type d : String)
    (hfail : summarizeAndEmbed sumw embw d = Except.error ()) :
    create_semantic_memory sumw embw now st client_id memory_type d
        = (st, Except.error ()) ∧
      (update_semantic_memory sumw embw now st client_id memory_type d).2
        = Except.error () ∧
      (update_semantic_memory sumw embw now st client_id memory_type d).1.docs.length
        = st.docs.length ∧
      (get_semantic_memory st client_id memory_type = none →
        update_semantic_memory sumw embw now st client_id memory_type d
          = (st, Except.error ())) ∧
      (∀ cur, get_semantic_memory st client_id memory_type = some cur →
        (update_semantic_memory sumw embw now st client_id memory_type d).1.archive
            = st.archive ++ [(cur, now)] ∧
          (update_semantic_memory sumw embw now st client_id memory_type d).1.docs
            = st.docs.map (deactivateOid cur.oid)) := by
  have hc : ∀ st' : SemanticStore,
      create_semantic_memory sumw embw now st' client_id memory_type d
        = (st', Except.error ()) := by
    intro st'
    rw [create_semantic_memory, hfail]
  refine ⟨hc st, ?_, ?_, ?_, ?_⟩
  · cases hget : get_semantic_memory st client_id memory_type with
    | none => rw [update_none_eq sumw embw now st client_id memory_type d hget, hc]
    | some cur => rw [update_some_eq sumw embw now st client_id memory_type d cur hget, hc]
  · cases hget : get_semantic_memory st client_id memory_type with
    | none => rw [update_none_eq sumw embw now st client_id memory_type d hget, hc]
    | some cur =>
      rw [update_some_eq sumw embw now st client_id memory_type d cur hget, hc]
      show (st.docs.map (deactivateOid cur.oid)).length = st.docs.length
      rw [List.length_map]
  · intro hget
    rw [update_none_eq sumw embw now st client_id memory_type d hget, hc]
  · intro cur hget
    rw [update_some_eq sumw embw now st client_id memory_type d cur hget, hc]
    exact ⟨rfl, rfl⟩

/-- Claim C4 counterexample: on a store with one active record, an update
whose summarization fails propagates the error and persists no new record —
but the store is NOT unchanged: the previous active record is already archived
and deactivated, contradicting the claim's "no existing record is archived,
no existing record is deactivated". -/
theorem failed_update_archives_and_deactivates :
    (update_semantic_memory sumFail embOk 7 c4Store "client_101" "profile" "new").2
        = Except.error () ∧
      (update_semantic_memory sumFail embOk 7 c4Store "client_101" "profile" "new").1.archive
        = [(c4Doc, 7)] ∧
      activeDocs (update_semantic_memory sumFail embOk 7 c4Store "client_101" "profile" "new").1
        "client_101" "profile" = [] ∧
      activeDocs c4Store "client_101" "profile" = [c4Doc] := by
  exact ⟨rfl, rfl, rfl, rfl⟩

/-- Witness for the amended claim C4 at the concrete failing update: the
summarization fails, the error propagates, no record is added, and the
superseded record sits archived and deactivated. -/
theorem semantic_failure_propagation_witness :
    summarizeAndEmbed sumFail embOk "new" = Except.error () ∧
      (create_semantic_memory sumFail embOk 7 c4Store "client_101" "profile" "new"
          = (c4Store, Except.error ()) ∧
        (update_semantic_memory sumFail embOk 7 c4Store "client_101" "profile" "new").2
          = Except.error () ∧
        (update_semantic_memory sumFail embOk 7 c4Store "client_101" "profile" "new").1.docs.length
          = c4Store.docs.length ∧
        (get_semantic_memory c4Store "client_101" "profile" = none →
          update_semantic_memory sumFail embOk 7 c4Store "client_101" "profile" "new"
            = (c4Store, Except.error ())) ∧
        (∀ cur, get_semantic_memory c4Store "client_101" "profile" = some cur →
          (update_semantic_memory sumFail embOk 7 c4Store "client_101" "profile" "new").1.archive
              = c4Store.archive ++ [(cur, 7)] ∧
            (update_semantic_memory sumFail embOk 7 c4Store "client_101" "profile" "new").1.docs
              = c4Store.docs.map (deactivateOid cur.oid))) :=
  ⟨rfl, semantic_failure_propagation sumFail embOk 7 c4Store "client_101" "profile" "new" rfl⟩

/-- Claim C8 counterexample: a candidate with raw score 1, confidence 1 and
success rate 1/4 — strictly between 0 and 0.5 — is weighted 1/4 by the
pipeline's `$cond` (the positive rate is used verbatim), not the 1/2 the
claimed `max(success_rate, 0.5)` formula would give; the two formulas
disagree, so such a procedure is NOT weighted as if its success rate were
0.5. -/
theorem low_success_rate_not_lifted :
    recommendSpec [c8Hit] [addWeightedFields c8Hit] ∧
      (addWeightedFields c8Hit).weighted_score = 1/4 ∧
      weightedScoreClaimed 1 1 (1/4) = 1/2 ∧
      (addWeightedFields c8Hit).weighted_score ≠ weightedScoreClaimed 1 1 (1/4) ∧
      (0 : ℚ) < 1/4 ∧ (1/4 : ℚ) < 1/2 := by
  refine ⟨⟨List.Perm.refl _, List.pairwise_singleton _ _⟩, ?_, ?_, ?_, ?_, ?_⟩ <;>
    norm_num [addWeightedFields, condFactor, c8Hit, weightedScoreClaimed, max_def]

/-- Claim C8 amended: every candidate's ranking weight equals its raw
similarity multiplied by `confidence_score` and by its success rate taken
verbatim when positive — even when strictly below 0.5 — with the neutral 0.5
only for a zero or missing success rate; candidates are ordered descending by
this weighted score. -/
theorem recommend_weight_formula (hits : List ProcSearchHit) (out : List WeightedHit)
    (hspec : recommendSpec hits out) (r : WeightedHit) (hr : r ∈ out) :
    r.weighted_score = r.score * r.confidence_score * condFactor r.success_rate ∧
      (∀ v, r.success_rate = some v → 0 < v →
        r.weighted_score = r.score * r.confidence_score * v) ∧
      (∀ v, r.success_rate = some v → ¬ 0 < v →
        r.weighted_score = r.score * r.confidence_score * (1/2)) ∧
      (r.success_rate = none →
        r.weighted_score = r.score * r.confidence_score * (1/2)) ∧
      out.Pairwise byWeightedDesc := by
  have hmem : r ∈ hits.map addWeightedFields := hspec.1.subset hr
  obtain ⟨h, _, rfl⟩ := List.mem_map.1 hmem
  refine ⟨rfl, ?_, ?_, ?_, hspec.2⟩
  · intro v hv hpos
    show h.score * h.confidence_score * condFactor h.success_rate = _
    have hsr : h.success_rate = some v := hv
    rw [hsr, condFactor, if_pos hpos]
    rfl
  · intro v hv hpos
    show h.score * h.confidence_score * condFactor h.success_rate = _
    have hsr : h.success_rate = some v := hv
    rw [hsr, condFactor, if_neg hpos]
    rfl
  · intro hv
    show h.score * h.confidence_score * condFactor h.success_rate = _
    have hsr : h.success_rate = none := hv
    rw [hsr, condFactor]
    rfl

/-- Witness for the amended claim C8: the singleton candidate with success
rate 1/4 satisfies the recommend spec and the theorem gives its weight as the
`$cond` formula. -/
theorem recommend_weight_formula_witness :
    recommendSpec [c8HitW] [addWeightedFields c8HitW] ∧
      (addWeightedFields c8HitW).weighted_score =
        (addWeightedFields c8HitW).score * (addWeightedFields c8HitW).confidence_score *
          condFactor (addWeightedFields c8HitW).success_rate := by
  have hspec : recommendSpec [c8HitW] [addWeightedFields c8HitW] :=
    ⟨List.Perm.refl _, List.pairwise_singleton _ _⟩
  exact ⟨hspec, (recommend_weight_formula _ _ hspec _ (List.mem_singleton_self _)).1⟩

/-- A nonempty fold of execution records ends in one `record` call. -/
theorem foldl_record_shape :
    ∀ (recs : List ExecutionRecord) (proc : ProcedureDoc), recs ≠ [] →
      ∃ q r, recs.foldl record_procedure_execution proc
        = record_procedure_execution q r := by
  intro recs
  induction recs with
  | nil =>
    intro proc h
    exact absurd rfl h
  | cons r rest ih =>
    intro proc _
    cases rest with
    | nil => exact ⟨proc, r, rfl⟩
    | cons r2 rest2 =>
      rw [List.foldl_cons]
      exact ih (record_procedure_execution proc r) (by simp)

/-- Any single `record_procedure_execution` call leaves the confidence inside
`[1/2, 19/20]`. -/
theorem record_conf_bounds (proc : ProcedureDoc) (r : ExecutionRecord) :
    1/2 ≤ (record_procedure_execution proc r).confidence_score ∧
      (record_procedure_execution proc r).confidence_score ≤ 19/20 := by
  show 1/2 ≤ min (19/20 : ℚ)
      (1/2 + ((successCount (proc.success_history ++ [r]) : ℚ)
        / (((proc.success_history ++ [r]).length : ℚ))) * (9/20)) ∧
    min (19/20 : ℚ)
      (1/2 + ((successCount (proc.success_history ++ [r]) : ℚ)
        / (((proc.success_history ++ [r]).length : ℚ))) * (9/20)) ≤ 19/20
  have hlen : 0 < ((proc.success_history ++ [r]).length : ℚ) := by
    have : 0 < (proc.success_history ++ [r]).length := by
      rw [List.length_append, List.length_cons]
      omega
    exact_mod_cast this
  have h0 : 0 ≤ (successCount (proc.success_history ++ [r]) : ℚ)
      / (((proc.success_history ++ [r]).length : ℚ)) :=
    div_nonneg (Nat.cast_nonneg _) (Nat.cast_nonneg _)
  constructor
  · apply le_min
    · norm_num
    · nlinarith
  · exact min_le_left _ _

/-- Claim C7: starting from a learned procedure (confidence 0.5), after any
finite number of `record_procedure_execution` calls the confidence lies in
`[0.5, 0.95]`, and after each call it equals
`min(0.95, 0.5 + success_rate * 0.45)` where `success_rate` is the number of
"success" outcomes in `success_history` divided by its total length. -/
theorem confidence_bound_and_formula (client_id procedure_type : String) (emb : List ℚ)
    (recs : List ExecutionRecord) :
    (1/2 ≤ (recs.foldl record_procedure_execution
          (learnedProcedure client_id procedure_type emb)).confidence_score ∧
      (recs.foldl record_procedure_execution
          (learnedProcedure client_id procedure_type emb)).confidence_score ≤ 19/20) ∧
      (recs ≠ [] →
        (recs.foldl record_procedure_execution
            (learnedProcedure client_id procedure_type emb)).confidence_score
          = min (19/20)
            (1/2 + ((successCount (recs.foldl record_procedure_execution
                  (learnedProcedure client_id procedure_type emb)).success_history : ℚ)
              / (((recs.foldl record_procedure_execution
                  (learnedProcedure client_id procedure_type emb)).success_history.length : ℚ)))
              * (9/20))) := by
  by_cases h : recs = []
  · subst h
    refine ⟨⟨?_, ?_⟩, fun hne => absurd rfl hne⟩
    · show (1/2 : ℚ) ≤ 1/2
      norm_num
    · show (1/2 : ℚ) ≤ 19/20
      norm_num
  · obtain ⟨q, r, heq⟩ := foldl_record_shape recs _ h
    rw [heq]
    exact ⟨record_conf_bounds q r, fun _ => rfl⟩

/-- Witness for claim C7: one recorded successful execution of a freshly
learned procedure keeps the confidence inside the bounds and matches the
recomputation formula. -/
theorem confidence_bound_and_formula_witness :
    ([c7Record] ≠ ([] : List ExecutionRecord)) ∧
      ((1/2 ≤ ([c7Record].foldl record_procedure_execution
            (learnedProcedure "client_101" "rebalancing" [])).confidence_score ∧
        ([c7Record].foldl record_procedure_execution
            (learnedProcedure "client_101" "rebalancing" [])).confidence_score ≤ 19/20) ∧
      ([c7Record] ≠ [] →
        ([c7Record].foldl record_procedure_execution
            (learnedProcedure "client_101" "rebalancing" [])).confidence_score
          = min (19/20)
            (1/2 + ((successCount ([c7Record].foldl record_procedure_execution
                  (learnedProcedure "client_101" "rebalancing" [])).success_history : ℚ)
              / ((([c7Record].foldl record_procedure_execution
                  (learnedProcedure "client_101" "rebalancing" [])).success_history.length : ℚ)))
              * (9/20)))) :=
  ⟨by decide, confidence_bound_and_formula "client_101" "rebalancing" [] [c7Record]⟩

end WealthAgents
